import Mathlib

/-!
Verification of the wiki-craft frontend against its natural-language
specification.  The definitions below are a shallow embedding of the
TypeScript sources under `frontend/src`: wire-contract types from
`types/api.ts`, the HTTP helpers from `api/client.ts`, the search request
builder from `api/search.ts`, the batch-upload bookkeeping from the upload
component, and the document-type filter toggle from the search-filters
component.  The backend Renderer of spec §4.5 is not part of the sources
and is modelled from the spec where a claim needs it.
-/

namespace WikiCraft

/-- The wire enum `DocumentType` from `types/api.ts`:
`pdf | docx | xlsx | markdown | text | html | epub | unknown`. -/
inductive DocumentType where
  | pdf
  | docx
  | xlsx
  | markdown
  | text
  | html
  | epub
  | unknown
deriving DecidableEq

/-- The wire string of each `DocumentType` alternative, exactly the string
literal of the TypeScript union member. -/
def DocumentType.toWire : DocumentType → String
  | .pdf => "pdf"
  | .docx => "docx"
  | .xlsx => "xlsx"
  | .markdown => "markdown"
  | .text => "text"
  | .html => "html"
  | .epub => "epub"
  | .unknown => "unknown"

/-- All alternatives of the `DocumentType` union, in source order. -/
def allDocumentTypes : List DocumentType :=
  [.pdf, .docx, .xlsx, .markdown, .text, .html, .epub, .unknown]

/-- The eight document-type wire strings named by the specification. -/
def specDocumentTypeWires : List String :=
  ["pdf", "docx", "xlsx", "markdown", "html", "epub", "text", "unknown"]

/-- The `DOCUMENT_TYPES` constant of the `SearchFilters` component: the seven
types offered as checkboxes, in source order (no `unknown`). -/
def DOCUMENT_TYPES : List DocumentType :=
  [.pdf, .docx, .xlsx, .markdown, .html, .epub, .text]

/-- `toggleType` from the `SearchFilters` component: if the type is already
selected, keep only the entries different from it; otherwise append it. -/
def toggleType (selectedTypes : List DocumentType) (t : DocumentType) :
    List DocumentType :=
  if t ∈ selectedTypes then selectedTypes.filter (fun u => u != t)
  else selectedTypes ++ [t]

/-- The client-side wiki output format union of `WikiGenerateRequest`
(`types/api.ts`) and `useGenerateWikiSimple` (`hooks/useWiki.ts`):
`markdown | html | json | text`. -/
inductive ClientWikiFormat where
  | markdown
  | html
  | json
  | text
deriving DecidableEq

/-- Wire string of each client wiki format. -/
def ClientWikiFormat.toWire : ClientWikiFormat → String
  | .markdown => "markdown"
  | .html => "html"
  | .json => "json"
  | .text => "text"

/-- All alternatives of the client wiki format union, in source order. -/
def allClientWikiFormats : List ClientWikiFormat :=
  [.markdown, .html, .json, .text]

/-- The render format set named by spec §4.5:
`format ∈ {markdown, html, text, structured}`. -/
def specRenderFormats : List String :=
  ["markdown", "html", "text", "structured"]

/-- The wiki format strings actually exchanged on the wire, read off the
frontend union (`WikiGenerateRequest.output_format`). -/
def wireWikiFormats : List String :=
  ["markdown", "html", "json", "text"]

/-- The error kinds of spec §7. -/
inductive ErrorKind where
  | NotFound
  | InvalidArgument
  | Unavailable
  | Conflict
deriving DecidableEq

/-- Modelled from the spec: the backend Renderer (§4.5) is not among the
sources; only its contract is known.  Its format validation is modelled
over the wire format names of `WikiGenerateRequest.output_format`, where
the spec's structured-data format travels as the string `json`; every
other string fails with `InvalidArgument`. -/
def validateRenderFormat (fmt : String) : Except ErrorKind ClientWikiFormat :=
  if fmt = "markdown" then .ok .markdown
  else if fmt = "html" then .ok .html
  else if fmt = "json" then .ok .json
  else if fmt = "text" then .ok .text
  else .error .InvalidArgument

/-- A JavaScript value as it may appear in the `params` record of `apiGet`
(`api/client.ts`): a string, number, or boolean, plus the `undefined` and
`null` cases the code guards against.  Numbers are modelled at integral
values, which is what every call site passes. -/
inductive JsParam where
  | undef
  | nullv
  | str (s : String)
  | num (n : Int)
  | bool (b : Bool)
deriving DecidableEq

/-- JavaScript `String(value)` on a `JsParam`. -/
def jsParamString : JsParam → String
  | .undef => "undefined"
  | .nullv => "null"
  | .str s => s
  | .num n => toString n
  | .bool b => if b then "true" else "false"

/-- The query-parameter serialization loop of `apiGet`: for each entry of
the params record, append `(key, String(value))` to the URL search params
unless the value is `undefined` or `null`. -/
def apiGetQueryParams (params : List (String × JsParam)) :
    List (String × String) :=
  params.filterMap (fun kv =>
    if kv.2 = .undef ∨ kv.2 = .nullv then none
    else some (kv.1, jsParamString kv.2))

/-- The parsed JSON body of an error response, restricted to the two fields
`handleResponse` inspects; a missing field is `none`. -/
structure JsonBody where
  detail : Option String
  message : Option String
deriving DecidableEq

/-- An HTTP response as `handleResponse` observes it: the `ok` flag, the
numeric status, the status text, and the JSON parse of the body (`none`
when the body is not valid JSON). -/
structure HttpResponse where
  ok : Bool
  status : Nat
  statusText : String
  body : Option JsonBody
deriving DecidableEq

/-- The `ApiError` class of `api/client.ts`: status, statusText and a
human-readable message. -/
structure ApiError where
  status : Nat
  statusText : String
  message : String
deriving DecidableEq

/-- JavaScript truthiness of an optional string field: present and
non-empty. -/
def jsTruthy : Option String → Bool
  | none => false
  | some s => s ≠ ""

/-- The message computation of `handleResponse` on a non-ok response:
`message` starts as `statusText`; if the body parses, it becomes
`errorData.detail || errorData.message || message` under JavaScript
truthiness. -/
def errorMessage (statusText : String) (body : Option JsonBody) : String :=
  match body with
  | none => statusText
  | some b =>
    if jsTruthy b.detail then b.detail.getD statusText
    else if jsTruthy b.message then b.message.getD statusText
    else statusText

/-- Outcome of `handleResponse`: the parsed body, a thrown `ApiError`, or
the JSON syntax error thrown by `response.json()` on an ok response whose
body does not parse. -/
inductive FetchOutcome where
  | value (body : JsonBody)
  | apiError (e : ApiError)
  | parseError
deriving DecidableEq

/-- `handleResponse` from `api/client.ts`: on a non-ok response throw an
`ApiError` with the status, statusText and computed message; on an ok
response return `response.json()`. -/
def handleResponse (r : HttpResponse) : FetchOutcome :=
  if r.ok then
    match r.body with
    | some b => .value b
    | none => .parseError
  else .apiError ⟨r.status, r.statusText, errorMessage r.statusText r.body⟩

/-- Response handling of `apiGet`: it ends in `return handleResponse(response)`. -/
def apiGetHandle (r : HttpResponse) : FetchOutcome := handleResponse r

/-- Response handling of `apiPost`. -/
def apiPostHandle (r : HttpResponse) : FetchOutcome := handleResponse r

/-- Response handling of `apiDelete`. -/
def apiDeleteHandle (r : HttpResponse) : FetchOutcome := handleResponse r

/-- Response handling of `apiUpload`. -/
def apiUploadHandle (r : HttpResponse) : FetchOutcome := handleResponse r

/-- Response handling of `apiUploadMultiple`. -/
def apiUploadMultipleHandle (r : HttpResponse) : FetchOutcome := handleResponse r

/-- The error message the claim's words describe: the body's `detail`
field, else its `message` field, else the statusText — with "else"
meaning field absence, not falsiness. -/
def claimedMessage (statusText : String) (body : Option JsonBody) : String :=
  match body with
  | none => statusText
  | some b =>
    match b.detail with
    | some d => d
    | none =>
      match b.message with
      | some m => m
      | none => statusText

/-- The query parameters issued by `searchSimple` (`api/search.ts`).  When
`documentTypes` is present and non-empty the URL is built manually: `q`,
`limit`, `min_score`, then one `document_type` per element; otherwise the
call goes through `apiGet` with the params record
`(q, limit, min_score)`. -/
def searchSimpleParams (q : String) (limit : Int) (minScore : Int)
    (documentTypes : Option (List DocumentType)) : List (String × String) :=
  match documentTypes with
  | some ts =>
    if ts.length > 0 then
      [("q", q), ("limit", toString limit), ("min_score", toString minScore)]
        ++ ts.map (fun t => ("document_type", t.toWire))
    else
      apiGetQueryParams [("q", .str q), ("limit", .num limit),
        ("min_score", .num minScore)]
  | none =>
    apiGetQueryParams [("q", .str q), ("limit", .num limit),
      ("min_score", .num minScore)]

/-- The `IngestResponse` wire shape from `types/api.ts`. -/
structure IngestResponse where
  document_id : String
  filename : String
  document_type : DocumentType
  chunks_created : Nat
  status : String
  errors : List String
deriving DecidableEq

/-- Per-file upload state of the `UploadZone` component. -/
inductive UploadStatus where
  | pending
  | uploading
  | success
  | error
deriving DecidableEq

/-- One entry of the `UploadZone` file list: the file's name, its status,
the matched `IngestResponse` when one was found, and the error text. -/
structure UploadResult where
  name : String
  status : UploadStatus
  result : Option IngestResponse
  error : Option String
deriving DecidableEq

/-- The per-file update `handleUpload` applies once the batch resolves:
files not in `uploading` state are left alone; otherwise the first
response whose `filename` equals the file's name decides the outcome
(`success` iff its status is the string `success`, with the response's
errors joined by a comma), and a file with no matching response becomes an
error reading `Unknown error`. -/
def settleOne (results : List IngestResponse) (f : UploadResult) :
    UploadResult :=
  if f.status ≠ .uploading then f
  else
    match results.find? (fun r => r.filename = f.name) with
    | some r =>
      { f with
        status := if r.status = "success" then .success else .error,
        result := some r,
        error := some (String.intercalate ", " r.errors) }
    | none => { f with status := .error, error := some "Unknown error" }

/-- The whole-list update of `handleUpload`: `prev.map` of the per-file
update. -/
def settleAll (results : List IngestResponse) (files : List UploadResult) :
    List UploadResult :=
  files.map (settleOne results)

/-- The `WikiSource` wire shape from `types/api.ts`.  The wire field named
`section` is called `sectionLabel` here because `section` is reserved in
Lean; `wikiSourceWire` below records its wire name.  Scores are modelled
as rationals. -/
structure WikiSource where
  chunk_id : String
  document_id : String
  document_title : Option String
  source_path : String
  page_number : Option Nat
  sectionLabel : Option String
  relevance_score : Rat
  excerpt : String
deriving DecidableEq

/-- A JSON value appearing in a serialized `WikiSource`. -/
inductive WireVal where
  | str (v : String)
  | optStr (v : Option String)
  | optNum (v : Option Nat)
  | score (v : Rat)
deriving DecidableEq

/-- The serialized field list of a `WikiSource`, field names exactly as in
`types/api.ts`, in declaration order. -/
def wikiSourceWire (w : WikiSource) : List (String × WireVal) :=
  [("chunk_id", .str w.chunk_id),
   ("document_id", .str w.document_id),
   ("document_title", .optStr w.document_title),
   ("source_path", .str w.source_path),
   ("page_number", .optNum w.page_number),
   ("section", .optStr w.sectionLabel),
   ("relevance_score", .score w.relevance_score),
   ("excerpt", .str w.excerpt)]

/-- The `WikiSource` attribute list of spec §3, as wire field names. -/
def specWikiSourceFields : List String :=
  ["chunk_id", "document_id", "document_title", "source_path",
   "page_number", "section", "relevance_score", "excerpt"]

/-- The `WikiSection` wire shape from `types/api.ts`: heading, content,
sources, confidence, recursive subsections. -/
inductive WikiSection where
  | mk (heading : String) (content : String) (sources : List WikiSource)
      (confidence : Rat) (subsections : List WikiSection)

/-- The `WikiEntry` wire shape from `types/api.ts`. -/
structure WikiEntry where
  entry_id : String
  title : String
  summary : String
  sections : List WikiSection
  all_sources : List WikiSource
  generated_at : String
  query : String

/-- Modelled from the spec: the backend Renderer's HTML escaping is not
among the sources.  Standard HTML escaping of one character: `&`, `<`,
`>` and the double quote become entities, every other character is kept. -/
def escChar (c : Char) : List Char :=
  if c = '&' then "&amp;".data
  else if c = '<' then "&lt;".data
  else if c = '>' then "&gt;".data
  else if c = '"' then "&quot;".data
  else [c]

/-- Modelled from the spec: HTML escaping of a whole string, applied to
every piece of source text the renderer emits. -/
def escapeHtml (s : String) : String :=
  String.mk (s.data.map escChar).flatten

/-- Concatenation of a list of HTML fragments. -/
def catHtml (l : List String) : String :=
  l.foldr (fun a b => a ++ b) ""

/-- Modelled from the spec: the HTML rendering of one citation — its
document title (or source path) and excerpt, both escaped. -/
def renderSourceHtml (w : WikiSource) : String :=
  "<li>" ++ escapeHtml (w.document_title.getD w.source_path) ++ ": "
    ++ escapeHtml w.excerpt ++ "</li>"

/-- Modelled from the spec: the HTML rendering of a section tree, with the
recursion bounded by fuel (spec §4.4 bounds subsection depth by 3).
Heading, content and every citation go through `escapeHtml`. -/
def renderSectionHtml : Nat → WikiSection → String
  | 0, _ => ""
  | fuel + 1, .mk heading content sources _ subsections =>
    "<h2>" ++ escapeHtml heading ++ "</h2>"
      ++ "<p>" ++ escapeHtml content ++ "</p>"
      ++ "<ul>" ++ catHtml (sources.map renderSourceHtml) ++ "</ul>"
      ++ catHtml (subsections.map (renderSectionHtml fuel))

/-- Modelled from the spec: the HTML rendering of a whole entry — title,
summary and the section tree, all source-derived text escaped.  This is
the `content` string the `WikiContent` component inserts verbatim via
`dangerouslySetInnerHTML`. -/
def renderHtml (e : WikiEntry) : String :=
  "<h1>" ++ escapeHtml e.title ++ "</h1>"
    ++ "<p>" ++ escapeHtml e.summary ++ "</p>"
    ++ catHtml (e.sections.map (renderSectionHtml 3))

/-- How many `<` characters a string contains. -/
def ltCount (s : String) : Nat :=
  s.data.count '<'

/-- The number of `<` characters the fixed markup of one citation
contributes: `<li>` and `</li>`. -/
def sourceMarkupLt : Nat := 2

/-- The number of `<` characters the fixed markup of a section tree
contributes.  It depends only on the shape of the tree — the number of
sections and citations — never on any text. -/
def sectionMarkupLt : Nat → WikiSection → Nat
  | 0, _ => 0
  | fuel + 1, .mk _ _ sources _ subsections =>
    6 + sourceMarkupLt * sources.length
      + (subsections.map (sectionMarkupLt fuel)).sum

/-- The number of `<` characters the fixed markup of a whole rendered
entry contributes; again a function of the shape only. -/
def entryMarkupLt (e : WikiEntry) : Nat :=
  4 + (e.sections.map (sectionMarkupLt 3)).sum

/-! ### Theorems -/

/-- C6: the wire-contract document type enum consists of exactly the eight
values pdf, docx, xlsx, markdown, html, epub, text and unknown: the union
`DocumentType` has exactly these alternatives (every value is listed in
`allDocumentTypes`, and the wire strings are a permutation of the spec's
eight names, so each is representable and nothing else is). -/
theorem documentType_wire_enum_exact :
    (∀ t : DocumentType, t ∈ allDocumentTypes) ∧
    (allDocumentTypes.map DocumentType.toWire).Perm specDocumentTypeWires := by
  refine ⟨fun t => ?_, by decide⟩
  cases t <;> decide

/-- C7: every `WikiSource` on the wire carries exactly the fields chunk_id,
document_id, document_title, source_path, page_number, section,
relevance_score and excerpt, matching the spec's attribute list field for
field (the serialized field names of any `WikiSource` are exactly the
spec's list, which has no duplicates). -/
theorem wikiSource_wire_fields_exact :
    (∀ w : WikiSource, (wikiSourceWire w).map Prod.fst = specWikiSourceFields) ∧
    specWikiSourceFields.Nodup := by
  exact ⟨fun w => rfl, by decide⟩

/-- C1, counterexample: the claim says every format the client can request
is one of markdown, html, text, structured; but the client union
`WikiGenerateRequest.output_format` contains `json`, whose wire string is
not in that set. -/
theorem clientWikiFormat_json_refutes_spec_set :
    ClientWikiFormat.json.toWire = "json" ∧ "json" ∉ specRenderFormats := by
  exact ⟨rfl, by decide⟩

/-- C1, amended: the client-requestable wiki output formats are exactly
markdown, html, json and text (the spec's structured format travels as
`json`), and the modelled render-format validation accepts exactly that
set, failing any other string with `InvalidArgument`. -/
theorem clientWikiFormats_exact_and_validated :
    (∀ f : ClientWikiFormat, f.toWire ∈ wireWikiFormats) ∧
    (∀ s : String, s ∈ wireWikiFormats → ∃ f : ClientWikiFormat, f.toWire = s) ∧
    (∀ s : String, (∃ f, validateRenderFormat s = .ok f) ↔ s ∈ wireWikiFormats) ∧
    (∀ s : String, s ∉ wireWikiFormats →
      validateRenderFormat s = .error .InvalidArgument) := by
  refine ⟨fun f => ?_, fun s hs => ?_, fun s => ?_, fun s hs => ?_⟩
  · cases f <;> decide
  · simp only [wireWikiFormats, List.mem_cons, List.not_mem_nil, or_false] at hs
    rcases hs with rfl | rfl | rfl | rfl
    · exact ⟨.markdown, rfl⟩
    · exact ⟨.html, rfl⟩
    · exact ⟨.json, rfl⟩
    · exact ⟨.text, rfl⟩
  · unfold validateRenderFormat wireWikiFormats
    split_ifs with h1 h2 h3 h4 <;> simp_all
  · unfold validateRenderFormat
    simp only [wireWikiFormats, List.mem_cons, List.not_mem_nil, or_false,
      not_or] at hs
    obtain ⟨h1, h2, h3, h4⟩ := hs
    simp [h1, h2, h3, h4]

/-- C1 witness: the amended theorem at concrete inputs — `json` is a
requestable format, and `yaml` is rejected with `InvalidArgument`. -/
theorem clientWikiFormats_exact_and_validated_witness :
    (∃ f : ClientWikiFormat, f.toWire = "json") ∧
    validateRenderFormat "yaml" = .error .InvalidArgument := by
  exact ⟨clientWikiFormats_exact_and_validated.2.1 "json" (by decide),
    clientWikiFormats_exact_and_validated.2.2.2 "yaml" (by decide)⟩

/-- Membership after one `toggleType` step, by cases on whether the
toggled type was selected. -/
lemma mem_toggleType (s : List DocumentType) (t u : DocumentType) :
    u ∈ toggleType s t ↔
      (if t ∈ s then u ∈ s ∧ u ≠ t else u ∈ s ∨ u = t) := by
  unfold toggleType
  split_ifs with h <;>
    simp [List.mem_filter, bne_iff_ne, List.mem_append]

/-- C8: `toggleType` flips exactly the membership of the toggled type: the
result contains `t` iff the input did not, every other type's membership
is unchanged, and toggling twice restores the original membership set. -/
theorem toggleType_flips_exactly_toggled :
    ∀ (s : List DocumentType) (t : DocumentType),
      (t ∈ toggleType s t ↔ t ∉ s) ∧
      (∀ u : DocumentType, u ≠ t → (u ∈ toggleType s t ↔ u ∈ s)) ∧
      (∀ u : DocumentType, u ∈ toggleType (toggleType s t) t ↔ u ∈ s) := by
  intro s t
  refine ⟨?_, fun u hu => ?_, fun u => ?_⟩
  · by_cases h : t ∈ s <;> simp [mem_toggleType, h]
  · by_cases h : t ∈ s <;> simp [mem_toggleType, h, hu]
  · by_cases h : t ∈ s
    · have h1 : t ∉ toggleType s t := by simp [mem_toggleType, h]
      by_cases hu : u = t
      · subst hu
        simp [mem_toggleType, h1, h]
      · simp [mem_toggleType, h1, h, hu]
    · have h1 : t ∈ toggleType s t := by simp [mem_toggleType, h]
      by_cases hu : u = t
      · subst hu
        simp [mem_toggleType, h1, h]
      · simp [mem_toggleType, h1, h, hu]

/-- C8 witness: the theorem at a concrete selection — toggling `pdf` does
not change membership of `docx`. -/
theorem toggleType_flips_exactly_toggled_witness :
    DocumentType.docx ∈ toggleType [DocumentType.pdf] DocumentType.pdf ↔
      DocumentType.docx ∈ [DocumentType.pdf] := by
  exact (toggleType_flips_exactly_toggled [DocumentType.pdf] .pdf).2.1 .docx
    (by decide)

/-- One toggle of an offered type keeps the selection inside the offered
list. -/
lemma toggleType_preserves_offered (s : List DocumentType)
    (t : DocumentType) (hs : ∀ u ∈ s, u ∈ DOCUMENT_TYPES)
    (ht : t ∈ DOCUMENT_TYPES) :
    ∀ u ∈ toggleType s t, u ∈ DOCUMENT_TYPES := by
  intro u hu
  rw [mem_toggleType] at hu
  by_cases h : t ∈ s
  · rw [if_pos h] at hu
    exact hs u hu.1
  · rw [if_neg h] at hu
    rcases hu with hu | rfl
    · exact hs u hu
    · exact ht

/-- Folding a sequence of offered-type toggles keeps the selection inside
the offered list. -/
lemma foldl_toggleType_preserves_offered :
    ∀ (clicks : List DocumentType) (s : List DocumentType),
      (∀ c ∈ clicks, c ∈ DOCUMENT_TYPES) →
      (∀ u ∈ s, u ∈ DOCUMENT_TYPES) →
      ∀ u ∈ clicks.foldl toggleType s, u ∈ DOCUMENT_TYPES := by
  intro clicks
  induction clicks with
  | nil => intro s _ hs u hu; exact hs u hu
  | cons c cs ih =>
    intro s hc hs u hu
    exact ih (toggleType s c)
      (fun x hx => hc x (List.mem_cons_of_mem c hx))
      (toggleType_preserves_offered s c hs (hc c (List.mem_cons_self c cs)))
      u hu

/-- C9: starting from the empty selection that `SearchPage` initializes,
every sequence of `SearchFilters` toggle interactions (each on one of the
seven offered checkbox types) yields a selection that is a subset of the
seven offered types, and the `unknown` document type can never appear in
it. -/
theorem searchFilters_selection_subset_offered :
    ∀ (clicks : List DocumentType),
      (∀ c ∈ clicks, c ∈ DOCUMENT_TYPES) →
      (∀ u ∈ clicks.foldl toggleType [], u ∈ DOCUMENT_TYPES) ∧
      DocumentType.unknown ∉ clicks.foldl toggleType [] := by
  intro clicks hc
  have hmain := foldl_toggleType_preserves_offered clicks [] hc
    (fun u hu => absurd hu (List.not_mem_nil u))
  refine ⟨hmain, fun hmem => ?_⟩
  have := hmain DocumentType.unknown hmem
  exact absurd this (by decide)

/-- C9 witness: the theorem at a concrete click sequence. -/
theorem searchFilters_selection_subset_offered_witness :
    (∀ u ∈ [DocumentType.pdf, DocumentType.html].foldl toggleType [],
      u ∈ DOCUMENT_TYPES) ∧
    DocumentType.unknown ∉
      [DocumentType.pdf, DocumentType.html].foldl toggleType [] := by
  exact searchFilters_selection_subset_offered
    [DocumentType.pdf, DocumentType.html] (by decide)

/-- C10: the URL built by `apiGet` contains a query parameter for exactly
those keys of the params record whose value is neither `undefined` nor
`null`, each serialized as JavaScript `String(value)`. -/
theorem apiGet_serializes_defined_params_exactly :
    ∀ (ps : List (String × JsParam)) (k s : String),
      (k, s) ∈ apiGetQueryParams ps ↔
        ∃ v : JsParam, (k, v) ∈ ps ∧ v ≠ .undef ∧ v ≠ .nullv ∧
          jsParamString v = s := by
  intro ps k s
  simp only [apiGetQueryParams, List.mem_filterMap]
  constructor
  · rintro ⟨⟨k2, v⟩, hmem, hv⟩
    by_cases hc : v = .undef ∨ v = .nullv
    · simp [hc] at hv
    · rw [if_neg hc] at hv
      push_neg at hc
      obtain ⟨hk, hs⟩ := Prod.mk.injEq .. ▸ Option.some.injEq .. ▸ hv
      exact ⟨v, hk ▸ hmem, hc.1, hc.2, hs⟩
  · rintro ⟨v, hmem, h1, h2, h3⟩
    refine ⟨(k, v), hmem, ?_⟩
    rw [if_neg (by simp [h1, h2]), h3]

/-- Reduction of the `apiGet` serialization on a defined head entry. -/
lemma apiGetQueryParams_cons_defined (k : String) (v : JsParam)
    (rest : List (String × JsParam)) (h1 : v ≠ .undef) (h2 : v ≠ .nullv) :
    apiGetQueryParams ((k, v) :: rest)
      = (k, jsParamString v) :: apiGetQueryParams rest := by
  simp only [apiGetQueryParams, List.filterMap_cons]
  rw [if_neg (by simp [h1, h2])]

/-- C5: `searchSimple` issues exactly the parameters `q`, `limit` and
`min_score` with the given values, followed by one `document_type`
parameter per element of `documentTypes` when that argument is present and
non-empty — and a `document_type` parameter appears exactly for the
elements of the supplied list, so none is sent when the list is absent or
empty. -/
theorem searchSimple_params_exact :
    ∀ (q : String) (limit minScore : Int)
      (documentTypes : Option (List DocumentType)),
      searchSimpleParams q limit minScore documentTypes
        = [("q", q), ("limit", toString limit),
            ("min_score", toString minScore)]
            ++ (documentTypes.getD []).map
                (fun t => ("document_type", t.toWire)) ∧
      (∀ v : String,
        ("document_type", v) ∈ searchSimpleParams q limit minScore documentTypes
          ↔ ∃ t ∈ documentTypes.getD [], t.toWire = v) := by
  intro q limit minScore documentTypes
  have hbase : apiGetQueryParams [("q", .str q), ("limit", .num limit),
      ("min_score", .num minScore)]
      = [("q", q), ("limit", toString limit),
          ("min_score", toString minScore)] := by
    rw [apiGetQueryParams_cons_defined _ _ _ (by simp) (by simp),
      apiGetQueryParams_cons_defined _ _ _ (by simp) (by simp),
      apiGetQueryParams_cons_defined _ _ _ (by simp) (by simp)]
    rfl
  have hmain : searchSimpleParams q limit minScore documentTypes
      = [("q", q), ("limit", toString limit),
          ("min_score", toString minScore)]
          ++ (documentTypes.getD []).map
              (fun t => ("document_type", t.toWire)) := by
    cases documentTypes with
    | none => simp [searchSimpleParams, hbase]
    | some ts =>
      cases ts with
      | nil => simp [searchSimpleParams, hbase]
      | cons t ts2 => simp [searchSimpleParams]
  refine ⟨hmain, fun v => ?_⟩
  rw [hmain]
  have hq : ("document_type" : String) ≠ "q" := by decide
  have hl : ("document_type" : String) ≠ "limit" := by decide
  have hm : ("document_type" : String) ≠ "min_score" := by decide
  simp [List.mem_append, List.mem_map, Prod.mk.injEq, hq, hl, hm]

/-- The error-message chain of the amended C3: the body's `detail` field
when it is a non-empty string, else its `message` field when non-empty,
else the statusText. -/
def amendedMessage (statusText : String) (body : Option JsonBody) : String :=
  match body with
  | none => statusText
  | some b =>
    match b.detail with
    | some d =>
      if d ≠ "" then d
      else
        match b.message with
        | some m => if m ≠ "" then m else statusText
        | none => statusText
    | none =>
      match b.message with
      | some m => if m ≠ "" then m else statusText
      | none => statusText

/-- The JavaScript `||` chain of `handleResponse` agrees with the
non-empty-field chain. -/
lemma errorMessage_eq_amendedMessage (st : String) (body : Option JsonBody) :
    errorMessage st body = amendedMessage st body := by
  cases body with
  | none => rfl
  | some b =>
    obtain ⟨detail, message⟩ := b
    cases detail with
    | none =>
      cases message with
      | none => rfl
      | some m =>
        by_cases hm : m = "" <;>
          simp [errorMessage, amendedMessage, jsTruthy, hm]
    | some d =>
      cases message with
      | none =>
        by_cases hd : d = "" <;>
          simp [errorMessage, amendedMessage, jsTruthy, hd]
      | some m =>
        by_cases hd : d = ""
        · by_cases hm : m = "" <;>
            simp [errorMessage, amendedMessage, jsTruthy, hd, hm]
        · simp [errorMessage, amendedMessage, jsTruthy, hd]

/-- C3, counterexample: for the response with status 500, statusText
`Internal Server Error` and body `detail = ""`, `message = "boom"`, the
claim's chain picks the present `detail` field — the empty string — but
the code's JavaScript `||` chain skips the falsy empty string and throws
an `ApiError` carrying `boom`. -/
theorem handleResponse_falsy_detail_counterexample :
    handleResponse ⟨false, 500, "Internal Server Error",
        some ⟨some "", some "boom"⟩⟩
      = .apiError ⟨500, "Internal Server Error", "boom"⟩ ∧
    claimedMessage "Internal Server Error" (some ⟨some "", some "boom"⟩)
      = "" ∧
    ("boom" : String) ≠ "" := by
  exact ⟨rfl, rfl, by decide⟩

/-- C3, amended: every API helper handles its response through
`handleResponse`; an ok response yields exactly its parsed JSON body; a
non-ok response never yields a value and throws an `ApiError` carrying
the numeric status, the statusText, and the message chain — the body's
`detail` field when non-empty, else its `message` field when non-empty,
else the statusText. -/
theorem apiHelpers_response_contract :
    ∀ r : HttpResponse,
      apiGetHandle r = handleResponse r ∧
      apiPostHandle r = handleResponse r ∧
      apiDeleteHandle r = handleResponse r ∧
      apiUploadHandle r = handleResponse r ∧
      apiUploadMultipleHandle r = handleResponse r ∧
      (r.ok = true → ∀ b, r.body = some b → handleResponse r = .value b) ∧
      (r.ok = false → handleResponse r
        = .apiError ⟨r.status, r.statusText,
            amendedMessage r.statusText r.body⟩) ∧
      (∀ b, handleResponse r = .value b → r.ok = true ∧ r.body = some b) := by
  intro r
  refine ⟨rfl, rfl, rfl, rfl, rfl, ?_, ?_, ?_⟩
  · intro hok b hb
    simp [handleResponse, hok, hb]
  · intro hok
    simp [handleResponse, hok, errorMessage_eq_amendedMessage]
  · intro b h
    by_cases hok : r.ok
    · cases hb : r.body with
      | none => simp [handleResponse, hok, hb] at h
      | some b2 =>
        simp only [handleResponse, hok, if_true, hb] at h
        cases h
        exact ⟨hok, rfl⟩
    · simp [handleResponse, hok] at h

/-- C3 witness: the amended theorem at two concrete responses — an ok
response returning its body, and a 404 throwing an `ApiError` whose
message falls back to the statusText. -/
theorem apiHelpers_response_contract_witness :
    handleResponse ⟨true, 200, "OK", some ⟨none, none⟩⟩
      = .value ⟨none, none⟩ ∧
    handleResponse ⟨false, 404, "Not Found", none⟩
      = .apiError ⟨404, "Not Found", amendedMessage "Not Found" none⟩ := by
  have h1 := apiHelpers_response_contract ⟨true, 200, "OK", some ⟨none, none⟩⟩
  have h2 := apiHelpers_response_contract ⟨false, 404, "Not Found", none⟩
  exact ⟨h1.2.2.2.2.2.1 rfl ⟨none, none⟩ rfl, h2.2.2.2.2.2.2.1 rfl⟩

/-- C4: once a batch upload resolves, each uploading file's final state is
determined solely by the first `IngestResponse` whose filename matches it
— `success` exactly when that response's status equals `success`, `error`
with the response's errors joined otherwise, and `error` reading
`Unknown error` when no response matches — and the whole-list update is a
pointwise map, so one file's outcome never changes a sibling's. -/
theorem batch_upload_settles_files_independently :
    ∀ (results : List IngestResponse) (f : UploadResult),
      f.status = .uploading →
      (∀ r : IngestResponse,
        results.find? (fun r2 => r2.filename = f.name) = some r →
          ((settleOne results f).status = .success ↔ r.status = "success") ∧
          ((settleOne results f).status = .error ↔ r.status ≠ "success") ∧
          (settleOne results f).error
            = some (String.intercalate ", " r.errors)) ∧
      (results.find? (fun r2 => r2.filename = f.name) = none →
        (settleOne results f).status = .error ∧
        (settleOne results f).error = some "Unknown error") ∧
      (∀ (fs1 fs2 : List UploadResult),
        settleAll results (fs1 ++ f :: fs2)
          = settleAll results fs1 ++
              settleOne results f :: settleAll results fs2) := by
  intro results f hf
  refine ⟨fun r hr => ?_, fun hr => ?_, fun fs1 fs2 => ?_⟩
  · have hne : ¬ f.status ≠ UploadStatus.uploading := by simp [hf]
    by_cases hs : r.status = "success" <;>
      simp [settleOne, hne, hr, hs]
  · have hne : ¬ f.status ≠ UploadStatus.uploading := by simp [hf]
    simp [settleOne, hne, hr]
  · simp [settleAll]

/-- C4 witness: the theorem at a concrete batch — a matching successful
response marks the file `success`, and a file with no matching response is
marked `error` with `Unknown error`. -/
theorem batch_upload_settles_files_independently_witness :
    ((settleOne [⟨"d1", "a.txt", .text, 3, "success", []⟩]
        ⟨"a.txt", .uploading, none, none⟩).status = .success ↔
      ("success" : String) = "success") ∧
    ((settleOne [⟨"d1", "a.txt", .text, 3, "success", []⟩]
        ⟨"b.txt", .uploading, none, none⟩).status = .error ∧
      (settleOne [⟨"d1", "a.txt", .text, 3, "success", []⟩]
        ⟨"b.txt", .uploading, none, none⟩).error = some "Unknown error") := by
  have h1 := batch_upload_settles_files_independently
    [⟨"d1", "a.txt", .text, 3, "success", []⟩]
    ⟨"a.txt", .uploading, none, none⟩ rfl
  have h2 := batch_upload_settles_files_independently
    [⟨"d1", "a.txt", .text, 3, "success", []⟩]
    ⟨"b.txt", .uploading, none, none⟩ rfl
  exact ⟨(h1.1 ⟨"d1", "a.txt", .text, 3, "success", []⟩ (by decide)).1,
    h2.2.1 (by decide)⟩

/-- Escaping one character yields no `<`. -/
lemma escChar_count_lt (c : Char) : (escChar c).count '<' = 0 := by
  unfold escChar
  split_ifs with h1 h2 h3 h4
  · rfl
  · rfl
  · rfl
  · rfl
  · rw [List.count_eq_zero]
    simp only [List.mem_singleton]
    exact fun hh => h2 hh.symm

/-- Escaping one character yields no `>`. -/
lemma escChar_count_gt (c : Char) : (escChar c).count '>' = 0 := by
  unfold escChar
  split_ifs with h1 h2 h3 h4
  · rfl
  · rfl
  · rfl
  · rfl
  · rw [List.count_eq_zero]
    simp only [List.mem_singleton]
    exact fun hh => h3 hh.symm

/-- Escaping a character list yields no `<`. -/
lemma escList_count_lt (l : List Char) :
    ((l.map escChar).flatten).count '<' = 0 := by
  induction l with
  | nil => rfl
  | cons c cs ih =>
    simp only [List.map_cons, List.flatten_cons, List.count_append,
      escChar_count_lt, ih]

/-- Escaping a character list yields no `>`. -/
lemma escList_count_gt (l : List Char) :
    ((l.map escChar).flatten).count '>' = 0 := by
  induction l with
  | nil => rfl
  | cons c cs ih =>
    simp only [List.map_cons, List.flatten_cons, List.count_append,
      escChar_count_gt, ih]

/-- `<`-count distributes over string append. -/
lemma ltCount_append (a b : String) :
    ltCount (a ++ b) = ltCount a + ltCount b := by
  simp [ltCount, String.data_append, List.count_append]

/-- `<`-count of a fragment concatenation. -/
lemma ltCount_catHtml (l : List String) :
    ltCount (catHtml l) = (l.map ltCount).sum := by
  induction l with
  | nil => rfl
  | cons a rest ih =>
    simp [catHtml, ltCount_append] at ih ⊢
    rw [ih]

/-- Escaped strings contain no `<`. -/
lemma ltCount_escapeHtml (s : String) : ltCount (escapeHtml s) = 0 := by
  simp only [ltCount, escapeHtml]
  exact escList_count_lt s.data

/-- A rendered citation contains exactly the two `<` of its markup. -/
lemma ltCount_renderSourceHtml (w : WikiSource) :
    ltCount (renderSourceHtml w) = sourceMarkupLt := by
  simp only [renderSourceHtml, ltCount_append, ltCount_escapeHtml,
    sourceMarkupLt]
  rfl

/-- A rendered section tree contains exactly the `<` of its markup, a
function of its shape alone. -/
lemma ltCount_renderSectionHtml :
    ∀ (fuel : Nat) (sec : WikiSection),
      ltCount (renderSectionHtml fuel sec) = sectionMarkupLt fuel sec := by
  intro fuel
  induction fuel with
  | zero => intro sec; rfl
  | succ n ih =>
    intro sec
    obtain ⟨heading, content, sources, confidence, subsections⟩ := sec
    simp only [renderSectionHtml, sectionMarkupLt, ltCount_append,
      ltCount_catHtml, ltCount_escapeHtml, List.map_map, Function.comp_def,
      ltCount_renderSourceHtml, sourceMarkupLt, ih]
    have hs : (sources.map (fun _ => 2)).sum = 2 * sources.length := by
      induction sources with
      | nil => simp
      | cons x xs ihx =>
        simp only [List.map_cons, List.sum_cons, List.length_cons, ihx]
        omega
    rw [hs]
    have h1 : ltCount "<h2>" = 1 := rfl
    have h2 : ltCount "</h2>" = 1 := rfl
    have h3 : ltCount "<p>" = 1 := rfl
    have h4 : ltCount "</p>" = 1 := rfl
    have h5 : ltCount "<ul>" = 1 := rfl
    have h6 : ltCount "</ul>" = 1 := rfl
    rw [h1, h2, h3, h4, h5, h6]
    have he : (subsections.map (fun x => sectionMarkupLt n x)).sum
        = (subsections.map (sectionMarkupLt n)).sum := rfl
    rw [he]
    omega

/-- C2: the HTML rendering escapes all source text: escaping leaves no `<`
or `>` character in any source string, and the number of `<` characters in
the rendered HTML of any entry equals `entryMarkupLt`, a function of the
entry's shape alone — so no text coming from a chunk can contribute a tag
opener to the document-rendering surface the client fills verbatim. -/
theorem html_render_escapes_all_source_text :
    (∀ s : String,
      ltCount (escapeHtml s) = 0 ∧ (escapeHtml s).data.count '>' = 0) ∧
    (∀ e : WikiEntry, ltCount (renderHtml e) = entryMarkupLt e) := by
  refine ⟨fun s => ⟨ltCount_escapeHtml s, escList_count_gt s.data⟩,
    fun e => ?_⟩
  simp only [renderHtml, entryMarkupLt, ltCount_append, ltCount_catHtml,
    ltCount_escapeHtml, List.map_map, Function.comp_def,
    ltCount_renderSectionHtml]
  have h1 : ltCount "<h1>" = 1 := rfl
  have h2 : ltCount "</h1>" = 1 := rfl
  have h3 : ltCount "<p>" = 1 := rfl
  have h4 : ltCount "</p>" = 1 := rfl
  rw [h1, h2, h3, h4]

end WikiCraft
